import Mathlib

/-!
Verification development for the training/validation orchestration engine in
`torchmodels/main_old.py` and the dataset wrapper in `torchmodels/data_input.py`.

The Python source is shallowly embedded below: configuration objects become a
`Config` structure, the observable parts of `Session.__init__` become
`sessionInit`, the gradient-accumulation slicing of `_single_batch_accum`
becomes `microSliceBounds` / `accumObs`, metric aggregation (the
`MetricsContainer` of `metrics.py`, which is outside the given sources) is
modelled from the specification, and the control flow of `start`,
`_train_epoch` and `_start_training` becomes explicit event traces.
-/

/-- The configuration fields of `config` read by `main_old.py` that matter for
the orchestration logic: `session_id` (resume handle), `session_type`,
`batch_size`, `grad_accum_step`, `test_batch_size`, `mixed_precision`,
`epochs`, `tuning`, `debug`, and whether
`session_helper.create_learning_rate_scheduler` returned a (truthy)
scheduler object. -/
structure Config where
  session_id : Option String := none
  session_type : Option String := none
  batch_size : Nat := 64
  grad_accum_step : Nat := 64
  test_batch_size : Nat := 64
  mixed_precision : Bool := false
  epochs : Nat := 0
  tuning : Bool := false
  debug : Bool := false
  lr_scheduler_configured : Bool := false
  deriving Repr, DecidableEq

/-- The batch-execution strategy chosen at construction: `_single_batch`
(`simple`) or `_single_batch_accum` with the stored
`_gradient_accumulation_steps` (`accum`). -/
inductive BatchStrategy where
  | simple : BatchStrategy
  | accum : Nat → BatchStrategy
  deriving Repr, DecidableEq

/-- Errors the embedded Python code can raise.  `configurationError` is the
spec's taxonomy name for an invalid-settings failure; the source itself only
ever raises `ValueError`, `TypeError` or `AttributeError` on the paths
modelled here. -/
inductive PyErr where
  | configurationError : PyErr
  | valueError : PyErr
  | typeError : PyErr
  | attributeError : PyErr
  deriving Repr, DecidableEq

/-- The attributes assigned by `Session.__init__` (main_old.py lines 30-76)
that the claims depend on.  `session_type` is `none` when the attribute
`_session_type` was never assigned. -/
structure SessionState where
  session_type : Option String
  is_resume : Bool
  strategy : BatchStrategy
  mixed : Bool
  deriving Repr, DecidableEq

/-- Embeds `Session.__init__` (main_old.py lines 30-63) in an error monad:
on resume (`session_id` present) only `_session_id`/`is_resume` are set and
`_session_type` is never assigned; on a fresh start `_session_type` is
`config.session_type or "training"`.  The strategy branch (lines 50-55)
compares `batch_size` with `grad_accum_step` and otherwise stores
`batch_size // grad_accum_step` accumulation steps.  The constructor body
contains no `raise`, so the embedding always returns `Except.ok`. -/
def sessionInit (cfg : Config) : Except PyErr SessionState :=
  let st : Option String :=
    if cfg.session_id.isSome then none
    else some (cfg.session_type.getD "training")
  let strat : BatchStrategy :=
    if cfg.batch_size = cfg.grad_accum_step then .simple
    else .accum (cfg.batch_size / cfg.grad_accum_step)
  .ok { session_type := st
        is_resume := cfg.session_id.isSome
        strategy := strat
        mixed := cfg.mixed_precision }

/-- The `_gradient_accumulation_steps` stored by `__init__` line 55. -/
def gradAccumSteps (cfg : Config) : Nat :=
  cfg.batch_size / cfg.grad_accum_step

/-- The slice bounds `(start, end)` used by `_single_batch_accum`
(main_old.py lines 259-262): for each `step` below
`_gradient_accumulation_steps`, `start = step * grad_accum_step` and
`end = start + grad_accum_step`. -/
def microSliceBounds (cfg : Config) : List (Nat × Nat) :=
  (List.range (gradAccumSteps cfg)).map
    (fun s => (s * cfg.grad_accum_step, s * cfg.grad_accum_step + cfg.grad_accum_step))

/-- Every micro-batch slice of `cfg` ends at or before index `n`
(a batch of actual size `n` is never over-run). -/
def slicesWithin (cfg : Config) (n : Nat) : Prop :=
  ∀ p ∈ microSliceBounds cfg, p.2 ≤ n

/-- Every element of a batch of actual size `n` lies in some micro-batch
slice of `cfg` (no element is left unprocessed). -/
def slicesCover (cfg : Config) (n : Nat) : Prop :=
  ∀ i < n, ∃ p ∈ microSliceBounds cfg, p.1 ≤ i ∧ i < p.2

instance (cfg : Config) (n : Nat) : Decidable (slicesWithin cfg n) := by
  unfold slicesWithin; infer_instance

instance (cfg : Config) (n : Nat) : Decidable (slicesCover cfg n) := by
  unfold slicesCover; infer_instance

/-!  ## Metric aggregation

`MetricsContainer`, `MultiClassAccuracy` and the loss metric live in
`metrics.py`, which is not among the given sources; they are modelled from
the specification (section 4.3).  The batch executors that feed them
(`_single_batch`, `_single_batch_accum`, `_default_forward`) are embedded
from `main_old.py`.  Loss values are rationals; the external
`nn.CrossEntropyLoss` (mean reduction) is represented by the mean of a list
of per-example losses. -/

/-- Modelled from the spec: the running weighted-mean state of a loss metric
in `metrics.py`, updated per observation by
`new_mean = old_mean + (batch_mean - old_mean) * count / running_count`. -/
structure MeanMetric where
  mean : ℚ
  count : ℚ
  deriving Repr, DecidableEq

/-- Modelled from the spec: one weighted-mean update step (value `v`,
weight `w`). -/
def MeanMetric.update (m : MeanMetric) (v w : ℚ) : MeanMetric :=
  let c := m.count + w
  { mean := m.mean + (v - m.mean) * w / c, count := c }

/-- Fold a sequence of `(value, weight)` observations into a `MeanMetric`. -/
def MeanMetric.observeAll (m : MeanMetric) (obs : List (ℚ × ℚ)) : MeanMetric :=
  obs.foldl (fun a p => a.update p.1 p.2) m

/-- Modelled from the spec: the accuracy metric state of
`MultiClassAccuracy` — a running count of `argmax(predictions) == label`
matches and a running observation count. -/
structure AccMetric where
  correct : ℚ
  count : ℚ
  deriving Repr, DecidableEq

/-- Modelled from the spec: an accuracy update adds the number of correct
predictions in the observation and its weight to the running counters. -/
def AccMetric.update (m : AccMetric) (correct : Nat) (w : ℚ) : AccMetric :=
  { correct := m.correct + correct, count := m.count + w }

/-- The aggregated metric state a single epoch-mode pass maintains for one
mode: the mode's loss metric and accuracy metric. -/
structure Metrics where
  loss : MeanMetric
  acc : AccMetric
  deriving Repr, DecidableEq

/-- The freshly reset metric state at the start of an epoch-mode pass. -/
def Metrics.fresh : Metrics :=
  { loss := { mean := 0, count := 0 }, acc := { correct := 0, count := 0 } }

/-- Number of pairs whose predicted class (argmax) equals the label. -/
def countCorrect (ps : List (Nat × Nat)) : Nat :=
  ps.countP (fun p => p.1 = p.2)

/-- One `update_training` / `update_validation` call
(main_old.py lines 250 and 273): loss value, prediction/label pairs and the
observation count `len(label)`. -/
structure Obs where
  v : ℚ
  ps : List (Nat × Nat)
  w : Nat
  deriving Repr, DecidableEq

/-- Apply one metrics update (modelled from the spec formulae above). -/
def updateMetrics (m : Metrics) (o : Obs) : Metrics :=
  { loss := m.loss.update o.v o.w, acc := m.acc.update (countCorrect o.ps) o.w }

/-- Apply a sequence of metric observations in order. -/
def applyObs (m : Metrics) (obs : List Obs) : Metrics :=
  obs.foldl updateMetrics m

/-- The external `nn.CrossEntropyLoss` with its default mean reduction,
over the per-example losses of the (micro-)batch. -/
def crossEntropyMean (ls : List ℚ) : ℚ :=
  ls.sum / ls.length

/-- Embeds `_single_batch` together with `_default_forward`
(main_old.py lines 220-223 and 235-250): the whole batch is one unit, the
loss quotient defaults to 1, and the observation weight is `len(label)`.
`ls` are the per-example losses, `ps` the (argmax prediction, label)
pairs. -/
def simpleObs (ls : List ℚ) (ps : List (Nat × Nat)) : List Obs :=
  [{ v := crossEntropyMean ls / 1, ps := ps, w := ps.length }]

/-- Embeds `_single_batch_accum` together with `_default_forward`
(main_old.py lines 220-223 and 252-273): for each accumulation step the
slice `[step * grad_accum_step, step * grad_accum_step + grad_accum_step)`
of the features and labels is taken, the loss quotient is `len(y_true)`,
and the observation weight is `len(y_true)`. -/
def accumObs (cfg : Config) (ls : List ℚ) (ps : List (Nat × Nat)) : List Obs :=
  (List.range (gradAccumSteps cfg)).map (fun s =>
    let x := (ls.drop (s * cfg.grad_accum_step)).take cfg.grad_accum_step
    let y := (ps.drop (s * cfg.grad_accum_step)).take cfg.grad_accum_step
    { v := crossEntropyMean x / y.length, ps := y, w := y.length })

/-- Metric state after the simple strategy processes one batch. -/
def singleBatchMetrics (m : Metrics) (ls : List ℚ) (ps : List (Nat × Nat)) : Metrics :=
  applyObs m (simpleObs ls ps)

/-- Metric state after the accumulating strategy processes one batch. -/
def singleBatchAccumMetrics (cfg : Config) (m : Metrics) (ls : List ℚ)
    (ps : List (Nat × Nat)) : Metrics :=
  applyObs m (accumObs cfg ls ps)

/-!  ## Control-flow traces

The observable side effects of `start`, `_load_data`, `_train_epoch` and
`_start_training` are embedded as event traces; a run returns the events
that executed before it finished or before an exception stopped it. -/

/-- Observable events of a session run. -/
inductive Ev where
  | modelInit : Ev
  | dataLoadVal : Ev
  | summary : Ev
  | buildMetrics : Ev
  | saveConfig : Ev
  | beginSession : Ev
  | lrMetric : Ev
  | beginEpoch : Nat → Ev
  | trainPass : Ev
  | valPass : Ev
  | endEpoch : Ev
  | schedStep : Ev
  | report : Ev
  | saveCheckpoint : Ev
  | resetMetrics : Ev
  | saveWeights : Ev
  | endSession : Ev
  | zeroGrad : Ev
  | backward : Ev
  | metricUpd : Ev
  | scalerStep : Ev
  | scalerUpdate : Ev
  | optStep : Ev
  | progressUpd : Ev
  deriving Repr, DecidableEq

/-- Embeds `SkeletonDataset.__init__` argument binding
(data_input.py lines 7-16): the signature
`__init__(self, features_path, label_path, **kwargs)` accepts exactly two
positional arguments; any other positional count raises `TypeError`.
`posArgs` is the number of positional arguments supplied. -/
def callSkeletonDataset (posArgs : Nat) : Except PyErr Unit :=
  if posArgs = 2 then .ok () else .error .typeError

/-- Embeds `_load_data` (main_old.py lines 202-218): reading
`self._session_type` raises `AttributeError` when the attribute was never
assigned; in a training session the training `SkeletonDataset` is built
with THREE positional arguments
(`training_features_path, training_labels_path, config.debug`, lines
209-210), the validation one with two (line 215). -/
def loadData (s : SessionState) : List Ev × Option PyErr :=
  match s.session_type with
  | none => ([], some .attributeError)
  | some ty =>
    if ty = "training" then
      match callSkeletonDataset 3 with
      | .error e => ([], some e)
      | .ok _ =>
        match callSkeletonDataset 2 with
        | .error e => ([], some e)
        | .ok _ => ([Ev.dataLoadVal], none)
    else
      match callSkeletonDataset 2 with
      | .error e => ([], some e)
      | .ok _ => ([Ev.dataLoadVal], none)

/-- Embeds `Session._initialize_model` lines 117-119 together with line 69:
the `_starting_epoch` attribute is 0 on a fresh start and
`checkpoint["epoch"] + 1` after `load_latest` on resume. -/
def startingEpoch (isResume : Bool) (cpEpoch : Nat) : Nat :=
  if isResume then cpEpoch + 1 else 0

/-- Embeds the epoch indices enumerated by the loop of `_start_training`
(main_old.py line 319): `for epoch in range(self._config.epochs)`. -/
def trainingEpochIndices (cfg : Config) : List Nat :=
  List.range cfg.epochs

/-- Embeds the events of one training batch inside `_batch_fun`
(lines 235-273): per micro-batch a backward pass (training mode) and one
metrics update; the accumulating strategy runs its stored number of steps,
the simple strategy processes the batch as one unit. -/
def microEvents (strat : BatchStrategy) : List Ev :=
  match strat with
  | .simple => [Ev.backward, Ev.metricUpd]
  | .accum steps => (List.range steps).flatMap (fun _ => [Ev.backward, Ev.metricUpd])

/-- Embeds one iteration of the batch loop of `_train_epoch`
(main_old.py lines 281-297): `optimizer.zero_grad()`, then `_batch_fun`,
then either `loss_scale.step(optimizer); loss_scale.update()` (mixed
precision) or `optimizer.step()`, then the progress-bar update. -/
def trainBatchEvents (cfg : Config) (strat : BatchStrategy) : List Ev :=
  Ev.zeroGrad :: (microEvents strat ++
    (if cfg.mixed_precision then [Ev.scalerStep, Ev.scalerUpdate] else [Ev.optStep]) ++
    [Ev.progressUpd])

/-- Embeds `_train_epoch` (lines 275-297) over `numBatches` training
batches. -/
def trainEpochEvents (cfg : Config) (strat : BatchStrategy) (numBatches : Nat) : List Ev :=
  (List.range numBatches).flatMap (fun _ => trainBatchEvents cfg strat)

/-- Embeds one iteration of the epoch loop of `_start_training`
(main_old.py lines 319-342): record the learning rate, begin the epoch,
training pass, validation pass, `end_epoch`, then `lr_scheduler.step()` iff
a scheduler is configured, then either the tuning reporter callback or
`save_checkpoint`, then `reset_all`. -/
def epochEvents (cfg : Config) (hasReporter : Bool) (e : Nat) : List Ev :=
  [Ev.lrMetric, Ev.beginEpoch e, Ev.trainPass, Ev.valPass, Ev.endEpoch] ++
    (if cfg.lr_scheduler_configured then [Ev.schedStep] else []) ++
    (if hasReporter then [Ev.report] else [Ev.saveCheckpoint]) ++
    [Ev.resetMetrics]

/-- Embeds `_start_training` (lines 313-344): the epoch loop over
`range(config.epochs)` followed by `save_weights`. -/
def startTrainingEvents (cfg : Config) (hasReporter : Bool) : List Ev :=
  (trainingEpochIndices cfg).flatMap (epochEvents cfg hasReporter) ++ [Ev.saveWeights]

/-- Embeds `start` (main_old.py lines 121-151): construct the session state,
run `_initialize_model`, `_load_data`, the summary print (unless tuning),
`_build_metrics`, `save_configuration`, `begin_session` (a read of
`self._session_type`), then dispatch on the session type — `_start_training`
for "training", the empty `_start_validation` stub (lines 346-348) for
"validation", otherwise `raise ValueError` (line 148).  The result is the
trace of executed events together with the exception, if one was raised. -/
def startRun (cfg : Config) (hasReporter : Bool) : List Ev × Option PyErr :=
  match sessionInit cfg with
  | .error e => ([], some e)
  | .ok s =>
    let initEvs := [Ev.modelInit]
    match loadData s with
    | (dEvs, some e) => (initEvs ++ dEvs, some e)
    | (dEvs, none) =>
      let pre := initEvs ++ dEvs ++
        (if cfg.tuning then [] else [Ev.summary]) ++
        [Ev.buildMetrics, Ev.saveConfig]
      match s.session_type with
      | none => (pre, some .attributeError)
      | some ty =>
        let pre := pre ++ [Ev.beginSession]
        if ty = "training" then
          (pre ++ startTrainingEvents cfg hasReporter ++ [Ev.endSession], none)
        else if ty = "validation" then
          (pre ++ [Ev.endSession], none)
        else
          (pre, some .valueError)

/-- `True` iff the event applies a parameter update: a direct optimizer step
or the loss-scaler step that performs the update under mixed precision. -/
def isParamUpdate (e : Ev) : Bool :=
  e == Ev.optStep || e == Ev.scalerStep

/-!  ## Helper lemmas -/

theorem chunks_flatten {α : Type} (A : Nat) :
    ∀ (steps : Nat) (l : List α), l.length = steps * A →
      ((List.range steps).map (fun s => (l.drop (s * A)).take A)).flatten = l := by
  intro steps
  induction steps with
  | zero =>
    intro l hl
    simp only [Nat.zero_mul, List.length_eq_zero] at hl
    simp [hl]
  | succ n ih =>
    intro l hl
    rw [List.range_succ_eq_map, List.map_cons, List.map_map, List.flatten_cons]
    have hrest : ∀ s : Nat, ((fun s => (l.drop (s * A)).take A) ∘ Nat.succ) s =
        (fun s => ((l.drop A).drop (s * A)).take A) s := by
      intro s
      simp only [Function.comp_apply, List.drop_drop]
      rw [Nat.succ_mul, Nat.add_comm]
    rw [List.map_congr_left (fun s _ => hrest s)]
    have hlen : (l.drop A).length = n * A := by
      rw [List.length_drop, hl, Nat.succ_mul, Nat.add_sub_cancel]
    rw [ih (l.drop A) hlen]
    simp [List.take_append_drop]

theorem chunk_length {α : Type} {A steps : Nat} {l : List α} (hl : l.length = steps * A)
    {s : Nat} (hs : s < steps) : ((l.drop (s * A)).take A).length = A := by
  rw [List.length_take, List.length_drop, hl]
  have h1 : s * A + A ≤ steps * A := by
    have : s + 1 ≤ steps := hs
    calc s * A + A = (s + 1) * A := by rw [Nat.succ_mul]
    _ ≤ steps * A := Nat.mul_le_mul_right A this
  omega

theorem sum_map_div {α : Type} (l : List α) (f : α → ℚ) (a : ℚ) :
    (l.map (fun x => f x / a)).sum = (l.map f).sum / a := by
  induction l with
  | nil => simp
  | cons x xs ih => simp [ih, add_div]

/-- The running-weighted-mean fold: given positive weights and a
nonnegative running count, the final count is the old count plus the total
weight, and mean times count grows by the weighted sum of the values. -/
theorem observeAll_spec (obs : List (ℚ × ℚ)) :
    ∀ (m : MeanMetric), (∀ p ∈ obs, 0 < p.2) → 0 ≤ m.count →
      (MeanMetric.observeAll m obs).count = m.count + (obs.map Prod.snd).sum ∧
      (MeanMetric.observeAll m obs).mean * (MeanMetric.observeAll m obs).count =
        m.mean * m.count + (obs.map (fun p => p.1 * p.2)).sum := by
  induction obs with
  | nil => intro m _ _; simp [MeanMetric.observeAll]
  | cons p rest ih =>
    intro m hpos hc
    have hw : 0 < p.2 := hpos p (List.mem_cons_self p rest)
    have hstep : MeanMetric.observeAll m (p :: rest) =
        MeanMetric.observeAll (m.update p.1 p.2) rest := rfl
    have hcount : (m.update p.1 p.2).count = m.count + p.2 := rfl
    have hcpos : (0 : ℚ) < m.count + p.2 := by linarith
    have hrest := ih (m.update p.1 p.2) (fun q hq => hpos q (List.mem_cons_of_mem p hq))
      (by rw [hcount]; linarith)
    constructor
    · rw [hstep, hrest.1, hcount]
      simp [add_assoc]
    · rw [hstep, hrest.2, hcount]
      have hmean : (m.update p.1 p.2).mean * (m.count + p.2) =
          m.mean * m.count + p.1 * p.2 := by
        show (m.mean + (p.1 - m.mean) * p.2 / (m.count + p.2)) * (m.count + p.2) =
          m.mean * m.count + p.1 * p.2
        field_simp
        ring
      rw [hmean]
      simp [add_assoc]

/-- Decomposing `applyObs` into its loss component: the loss metric folds
over the `(value, weight)` projections of the observations. -/
theorem applyObs_loss (obs : List Obs) : ∀ m : Metrics,
    (applyObs m obs).loss =
      m.loss.observeAll (obs.map (fun o => (o.v, (o.w : ℚ)))) := by
  induction obs with
  | nil => intro m; rfl
  | cons o rest ih => intro m; exact ih (updateMetrics m o)

/-- Decomposing `applyObs` into its accuracy component: correct counts and
weights simply add up. -/
theorem applyObs_acc (obs : List Obs) : ∀ m : Metrics,
    (applyObs m obs).acc.correct =
      m.acc.correct + (obs.map (fun o => (countCorrect o.ps : ℚ))).sum ∧
    (applyObs m obs).acc.count =
      m.acc.count + (obs.map (fun o => (o.w : ℚ))).sum := by
  induction obs with
  | nil => intro m; simp [applyObs]
  | cons o rest ih =>
    intro m
    have h := ih (updateMetrics m o)
    have h1 : (updateMetrics m o).acc.correct = m.acc.correct + (countCorrect o.ps : ℚ) := rfl
    have h2 : (updateMetrics m o).acc.count = m.acc.count + (o.w : ℚ) := rfl
    constructor
    · show (applyObs (updateMetrics m o) rest).acc.correct = _
      rw [h.1, h1]
      simp [add_assoc]
    · show (applyObs (updateMetrics m o) rest).acc.count = _
      rw [h.2, h2]
      simp [add_assoc]

theorem accumObs_canonical (cfg : Config) (ls : List ℚ) (ps : List (Nat × Nat))
    (hls : ls.length = gradAccumSteps cfg * cfg.grad_accum_step)
    (hps : ps.length = gradAccumSteps cfg * cfg.grad_accum_step) :
    accumObs cfg ls ps = (List.range (gradAccumSteps cfg)).map (fun s =>
      { v := ((ls.drop (s * cfg.grad_accum_step)).take cfg.grad_accum_step).sum /
               (cfg.grad_accum_step : ℚ) / (cfg.grad_accum_step : ℚ),
        ps := (ps.drop (s * cfg.grad_accum_step)).take cfg.grad_accum_step,
        w := cfg.grad_accum_step }) := by
  unfold accumObs
  apply List.map_congr_left
  intro s hs
  have hx := chunk_length hls (List.mem_range.mp hs)
  have hy := chunk_length hps (List.mem_range.mp hs)
  simp only [crossEntropyMean, hx, hy]

theorem sum_map_const_rat (n : Nat) (c : ℚ) :
    ((List.range n).map (fun _ => c)).sum = (n : ℚ) * c := by
  rw [List.map_const', List.length_range, List.sum_replicate, nsmul_eq_mul]

theorem chunk_sums (A steps : Nat) (l : List ℚ) (hl : l.length = steps * A) :
    ((List.range steps).map (fun s => ((l.drop (s * A)).take A).sum)).sum = l.sum := by
  have hj := chunks_flatten A steps l hl
  calc ((List.range steps).map (fun s => ((l.drop (s * A)).take A).sum)).sum
      = (((List.range steps).map (fun s => (l.drop (s * A)).take A)).map List.sum).sum := by
        rw [List.map_map]; rfl
    _ = ((List.range steps).map (fun s => (l.drop (s * A)).take A)).flatten.sum :=
        List.sum_flatten.symm
    _ = l.sum := by rw [hj]

theorem chunk_countCorrect (A steps : Nat) (ps : List (Nat × Nat))
    (hps : ps.length = steps * A) :
    ((List.range steps).map (fun s => countCorrect ((ps.drop (s * A)).take A))).sum =
      countCorrect ps := by
  have hj := chunks_flatten A steps ps hps
  conv_rhs => rw [← hj]
  rw [countCorrect, List.countP_flatten, List.map_map]
  rfl

/-!  ## Claim theorems -/

/-- C2: counterexample — with batch size B = 4, accumulation step size
A = 2 (so B % A = 0) and all per-example losses equal to 1, the simple
strategy aggregates a loss mean of 1 while the accumulating strategy
aggregates 1/2, because each micro-batch's mean loss is divided by the loss
quotient `len(y_true) = A` before being reported to the metrics; the
aggregated loss metric values therefore differ between the two
strategies. -/
theorem claimC2_counterexample :
    4 % 2 = 0 ∧
    (singleBatchAccumMetrics { batch_size := 4, grad_accum_step := 2 } Metrics.fresh
        [1, 1, 1, 1] [(0, 0), (0, 0), (0, 0), (0, 0)]).loss.mean ≠
      (singleBatchMetrics Metrics.fresh
        [1, 1, 1, 1] [(0, 0), (0, 0), (0, 0), (0, 0)]).loss.mean := by
  constructor
  · rfl
  · have ha : (singleBatchAccumMetrics { batch_size := 4, grad_accum_step := 2 } Metrics.fresh
        [1, 1, 1, 1] [(0, 0), (0, 0), (0, 0), (0, 0)]).loss.mean = 1 / 2 := by
      have hr : List.range (gradAccumSteps { batch_size := 4, grad_accum_step := 2 }) =
          [0, 1] := rfl
      simp only [singleBatchAccumMetrics, applyObs, accumObs, hr, List.map_cons, List.map_nil,
        List.foldl, updateMetrics, MeanMetric.update, AccMetric.update, crossEntropyMean,
        Metrics.fresh]
      norm_num [List.take, List.drop]
    have hb : (singleBatchMetrics Metrics.fresh
        [1, 1, 1, 1] [(0, 0), (0, 0), (0, 0), (0, 0)]).loss.mean = 1 := by
      simp only [singleBatchMetrics, applyObs, simpleObs, List.foldl, updateMetrics,
        MeanMetric.update, crossEntropyMean, Metrics.fresh]
      norm_num
    rw [ha, hb]
    norm_num

/-- C2 (amended): for all batch sizes B and accumulation step sizes A with
0 < A, A dividing B and 0 < B, executing one batch of size B from a freshly
reset metric state via the accumulating strategy produces the same
aggregated accuracy counters and the same loss observation count as the
simple strategy, but the aggregated loss mean equals the simple strategy's
aggregated loss mean divided by A (each micro-batch loss is reported after
division by the loss quotient A). -/
theorem claimC2_amended (cfg : Config) (ls : List ℚ) (ps : List (Nat × Nat))
    (hA : 0 < cfg.grad_accum_step)
    (hdvd : cfg.grad_accum_step ∣ cfg.batch_size)
    (hB : 0 < cfg.batch_size)
    (hls : ls.length = cfg.batch_size)
    (hps : ps.length = cfg.batch_size) :
    (singleBatchAccumMetrics cfg Metrics.fresh ls ps).acc.correct =
      (singleBatchMetrics Metrics.fresh ls ps).acc.correct ∧
    (singleBatchAccumMetrics cfg Metrics.fresh ls ps).acc.count =
      (singleBatchMetrics Metrics.fresh ls ps).acc.count ∧
    (singleBatchAccumMetrics cfg Metrics.fresh ls ps).loss.count =
      (singleBatchMetrics Metrics.fresh ls ps).loss.count ∧
    (singleBatchAccumMetrics cfg Metrics.fresh ls ps).loss.mean =
      (singleBatchMetrics Metrics.fresh ls ps).loss.mean / (cfg.grad_accum_step : ℚ) := by
  have hBA : gradAccumSteps cfg * cfg.grad_accum_step = cfg.batch_size :=
    Nat.div_mul_cancel hdvd
  have hlslen : ls.length = gradAccumSteps cfg * cfg.grad_accum_step := by rw [hls, hBA]
  have hpslen : ps.length = gradAccumSteps cfg * cfg.grad_accum_step := by rw [hps, hBA]
  have hA0 : (cfg.grad_accum_step : ℚ) ≠ 0 := Nat.cast_ne_zero.mpr (Nat.pos_iff_ne_zero.mp hA)
  have hB0 : (cfg.batch_size : ℚ) ≠ 0 := Nat.cast_ne_zero.mpr (Nat.pos_iff_ne_zero.mp hB)
  have hobs := accumObs_canonical cfg ls ps hlslen hpslen
  -- the simple strategy aggregates (ls.sum / B, B) and (countCorrect ps, B)
  have hsimple_loss_count : (singleBatchMetrics Metrics.fresh ls ps).loss.count =
      (cfg.batch_size : ℚ) := by
    show (0 : ℚ) + (ps.length : ℚ) = _
    rw [hps, zero_add]
  have hsimple_loss_mean : (singleBatchMetrics Metrics.fresh ls ps).loss.mean =
      ls.sum / (cfg.batch_size : ℚ) := by
    show (0 : ℚ) + (ls.sum / (ls.length : ℚ) / 1 - 0) * (ps.length : ℚ) /
        ((0 : ℚ) + (ps.length : ℚ)) = _
    rw [hls, hps]
    field_simp
  have hsimple_acc_correct : (singleBatchMetrics Metrics.fresh ls ps).acc.correct =
      (countCorrect ps : ℚ) := by
    show (0 : ℚ) + (countCorrect ps : ℚ) = _
    rw [zero_add]
  have hsimple_acc_count : (singleBatchMetrics Metrics.fresh ls ps).acc.count =
      (cfg.batch_size : ℚ) := by
    show (0 : ℚ) + (ps.length : ℚ) = _
    rw [hps, zero_add]
  -- the accumulating strategy: accuracy component
  have hacc := applyObs_acc (accumObs cfg ls ps) Metrics.fresh
  have hccsum : ((accumObs cfg ls ps).map (fun o => (countCorrect o.ps : ℚ))).sum =
      (countCorrect ps : ℚ) := by
    rw [hobs, List.map_map, ← chunk_countCorrect cfg.grad_accum_step (gradAccumSteps cfg) ps hpslen,
      Nat.cast_list_sum, List.map_map]
    rfl
  have hwsum : ((accumObs cfg ls ps).map (fun o => (o.w : ℚ))).sum =
      (cfg.batch_size : ℚ) := by
    rw [hobs, List.map_map]
    have heq : ((List.range (gradAccumSteps cfg)).map
        ((fun o : Obs => (o.w : ℚ)) ∘ (fun s =>
          { v := ((ls.drop (s * cfg.grad_accum_step)).take cfg.grad_accum_step).sum /
                   (cfg.grad_accum_step : ℚ) / (cfg.grad_accum_step : ℚ),
            ps := (ps.drop (s * cfg.grad_accum_step)).take cfg.grad_accum_step,
            w := cfg.grad_accum_step }))) =
        (List.range (gradAccumSteps cfg)).map (fun _ => (cfg.grad_accum_step : ℚ)) := rfl
    rw [heq, sum_map_const_rat, ← Nat.cast_mul, hBA]
  -- the accumulating strategy: loss component via the weighted-mean fold
  have hlossobs : (accumObs cfg ls ps).map (fun o => (o.v, (o.w : ℚ))) =
      (List.range (gradAccumSteps cfg)).map (fun s =>
        (((ls.drop (s * cfg.grad_accum_step)).take cfg.grad_accum_step).sum /
           (cfg.grad_accum_step : ℚ) / (cfg.grad_accum_step : ℚ),
         (cfg.grad_accum_step : ℚ))) := by
    rw [hobs, List.map_map]
    rfl
  have hlosspart : (singleBatchAccumMetrics cfg Metrics.fresh ls ps).loss =
      MeanMetric.observeAll { mean := 0, count := 0 }
        ((accumObs cfg ls ps).map (fun o => (o.v, (o.w : ℚ)))) := by
    show (applyObs Metrics.fresh (accumObs cfg ls ps)).loss = _
    rw [applyObs_loss]
    rfl
  have hpos : ∀ p ∈ (accumObs cfg ls ps).map (fun o => (o.v, (o.w : ℚ))), (0 : ℚ) < p.2 := by
    rw [hlossobs]
    intro p hp
    obtain ⟨s, _, hs⟩ := List.mem_map.mp hp
    rw [← hs]
    show (0 : ℚ) < (cfg.grad_accum_step : ℚ)
    exact_mod_cast hA
  have hspec := observeAll_spec ((accumObs cfg ls ps).map (fun o => (o.v, (o.w : ℚ))))
    { mean := 0, count := 0 } hpos (le_refl 0)
  have hwsum2 : (((accumObs cfg ls ps).map (fun o => (o.v, (o.w : ℚ)))).map Prod.snd).sum =
      (cfg.batch_size : ℚ) := by
    rw [List.map_map]
    exact hwsum
  have hvwsum : (((accumObs cfg ls ps).map (fun o => (o.v, (o.w : ℚ)))).map
      (fun p => p.1 * p.2)).sum = ls.sum / (cfg.grad_accum_step : ℚ) := by
    rw [hlossobs, List.map_map]
    have heq : ((List.range (gradAccumSteps cfg)).map
        ((fun p : ℚ × ℚ => p.1 * p.2) ∘ (fun s =>
          (((ls.drop (s * cfg.grad_accum_step)).take cfg.grad_accum_step).sum /
             (cfg.grad_accum_step : ℚ) / (cfg.grad_accum_step : ℚ),
           (cfg.grad_accum_step : ℚ))))) =
        (List.range (gradAccumSteps cfg)).map (fun s =>
          (fun t : Nat => ((ls.drop (t * cfg.grad_accum_step)).take cfg.grad_accum_step).sum) s /
            (cfg.grad_accum_step : ℚ)) := by
      apply List.map_congr_left
      intro s _
      show (((ls.drop (s * cfg.grad_accum_step)).take cfg.grad_accum_step).sum /
        (cfg.grad_accum_step : ℚ) / (cfg.grad_accum_step : ℚ)) * (cfg.grad_accum_step : ℚ) = _
      rw [div_mul_cancel₀ _ hA0]
    rw [heq, sum_map_div, chunk_sums cfg.grad_accum_step (gradAccumSteps cfg) ls hlslen]
  have haccum_count : (singleBatchAccumMetrics cfg Metrics.fresh ls ps).loss.count =
      (cfg.batch_size : ℚ) := by
    rw [hlosspart, hspec.1, hwsum2, zero_add]
  have haccum_mean : (singleBatchAccumMetrics cfg Metrics.fresh ls ps).loss.mean =
      ls.sum / (cfg.grad_accum_step : ℚ) / (cfg.batch_size : ℚ) := by
    have h2 := hspec.2
    rw [hvwsum] at h2
    have hcnt := haccum_count
    rw [hlosspart] at hcnt
    rw [hlosspart]
    rw [hcnt] at h2
    simp only [zero_mul, zero_add] at h2
    field_simp at h2 ⊢
    linarith
  refine ⟨?_, ?_, ?_, ?_⟩
  · show (applyObs Metrics.fresh (accumObs cfg ls ps)).acc.correct = _
    rw [hacc.1, hccsum, hsimple_acc_correct]
    show (0 : ℚ) + _ = _
    rw [zero_add]
  · show (applyObs Metrics.fresh (accumObs cfg ls ps)).acc.count = _
    rw [hacc.2, hwsum, hsimple_acc_count]
    show (0 : ℚ) + _ = _
    rw [zero_add]
  · rw [haccum_count, hsimple_loss_count]
  · rw [haccum_mean, hsimple_loss_mean]
    rw [div_div, div_div, mul_comm]

/-- C2 (amended), witness: at batch size 4, accumulation step 2 and concrete
losses and predictions, the accuracy counters and loss counts agree and the
accumulating loss mean is the simple loss mean divided by 2. -/
theorem claimC2_amended_witness :
    0 < 2 ∧ 2 ∣ 4 ∧ 0 < 4 ∧
    ((singleBatchAccumMetrics { batch_size := 4, grad_accum_step := 2 } Metrics.fresh
        [1, 2, 3, 4] [(0, 0), (1, 1), (2, 0), (3, 3)]).acc.correct =
      (singleBatchMetrics Metrics.fresh
        [1, 2, 3, 4] [(0, 0), (1, 1), (2, 0), (3, 3)]).acc.correct ∧
     (singleBatchAccumMetrics { batch_size := 4, grad_accum_step := 2 } Metrics.fresh
        [1, 2, 3, 4] [(0, 0), (1, 1), (2, 0), (3, 3)]).acc.count =
      (singleBatchMetrics Metrics.fresh
        [1, 2, 3, 4] [(0, 0), (1, 1), (2, 0), (3, 3)]).acc.count ∧
     (singleBatchAccumMetrics { batch_size := 4, grad_accum_step := 2 } Metrics.fresh
        [1, 2, 3, 4] [(0, 0), (1, 1), (2, 0), (3, 3)]).loss.count =
      (singleBatchMetrics Metrics.fresh
        [1, 2, 3, 4] [(0, 0), (1, 1), (2, 0), (3, 3)]).loss.count ∧
     (singleBatchAccumMetrics { batch_size := 4, grad_accum_step := 2 } Metrics.fresh
        [1, 2, 3, 4] [(0, 0), (1, 1), (2, 0), (3, 3)]).loss.mean =
      (singleBatchMetrics Metrics.fresh
        [1, 2, 3, 4] [(0, 0), (1, 1), (2, 0), (3, 3)]).loss.mean / ((2 : Nat) : ℚ)) :=
  ⟨by decide, by decide, by decide,
    claimC2_amended { batch_size := 4, grad_accum_step := 2 }
      [1, 2, 3, 4] [(0, 0), (1, 1), (2, 0), (3, 3)]
      (by decide) (by decide) (by decide) rfl rfl⟩

/-- C3: counterexample — with batch_size = 10 and grad_accum_step = 3
(10 % 3 ≠ 0, not an exact multiple), Session construction does NOT fail
with a ConfigurationError: `Session.__init__` contains no ratio check, so
it succeeds and selects the accumulating strategy with 10 // 3 = 3
micro-batches. -/
theorem claimC3_counterexample :
    10 % 3 ≠ 0 ∧
    sessionInit { batch_size := 10, grad_accum_step := 3 } =
      .ok { session_type := some "training", is_resume := false,
            strategy := .accum 3, mixed := false } :=
  ⟨by decide, rfl⟩

/-- C3 (amended): construction never fails on the accumulation ratio — for
every configuration it succeeds, selecting the simple strategy exactly when
batch_size equals grad_accum_step, and otherwise the accumulating strategy
with batch_size // grad_accum_step (floor division) micro-batches, which
equals the exact quotient whenever the ratio is exact. -/
theorem claimC3_amended (cfg : Config) :
    ∃ s, sessionInit cfg = .ok s ∧
      (s.strategy = .simple ↔ cfg.batch_size = cfg.grad_accum_step) ∧
      (cfg.batch_size ≠ cfg.grad_accum_step →
        s.strategy = .accum (cfg.batch_size / cfg.grad_accum_step)) := by
  refine ⟨_, rfl, ?_, ?_⟩
  · constructor
    · intro h
      by_contra hne
      rw [if_neg hne] at h
      exact BatchStrategy.noConfusion h
    · intro h
      rw [if_pos h]
  · intro hne
    rw [if_neg hne]

/-- C3 (amended), witness: at batch_size = 10 and grad_accum_step = 3 the
constructor succeeds and selects the accumulating strategy with 3
micro-batches. -/
theorem claimC3_amended_witness :
    ∃ s, sessionInit { batch_size := 10, grad_accum_step := 3 } = .ok s ∧
      (s.strategy = .simple ↔
        (10 : Nat) = 3) ∧
      ((10 : Nat) ≠ 3 →
        s.strategy = .accum (10 / 3)) :=
  claimC3_amended { batch_size := 10, grad_accum_step := 3 }

/-- C6: counterexample — with batch_size = 32 and grad_accum_step = 8 the
accumulating strategy uses slices ending at 32 regardless of the batch it
is applied to; on a validation batch of actual size 16 (test_batch_size
different from batch_size) the last slice end exceeds the batch size, so
the claimed safety property fails. -/
theorem claimC6_counterexample :
    ¬ slicesWithin { batch_size := 32, grad_accum_step := 8, test_batch_size := 16 } 16 := by
  decide

/-- C6 (amended): the micro-batch slices exactly cover a batch only when
its actual size equals the configured batch_size and grad_accum_step
divides it evenly: every slice then ends at or before the batch size and
every element lies in some slice.  For validation batches, which are drawn
with test_batch_size and may be smaller, this coverage can fail (see the
counterexample). -/
theorem claimC6_amended (cfg : Config) (n : Nat)
    (hn : n = cfg.batch_size)
    (hA : 0 < cfg.grad_accum_step)
    (hdvd : cfg.grad_accum_step ∣ cfg.batch_size) :
    slicesWithin cfg n ∧ slicesCover cfg n := by
  subst hn
  constructor
  · intro p hp
    obtain ⟨s, hs, hps⟩ := List.mem_map.mp hp
    have hs' : s < gradAccumSteps cfg := List.mem_range.mp hs
    rw [← hps]
    show s * cfg.grad_accum_step + cfg.grad_accum_step ≤ cfg.batch_size
    have h1 : (s + 1) * cfg.grad_accum_step ≤ gradAccumSteps cfg * cfg.grad_accum_step :=
      Nat.mul_le_mul_right _ hs'
    have hq : gradAccumSteps cfg * cfg.grad_accum_step = cfg.batch_size :=
      Nat.div_mul_cancel hdvd
    rw [hq] at h1
    calc s * cfg.grad_accum_step + cfg.grad_accum_step
        = (s + 1) * cfg.grad_accum_step := (Nat.succ_mul s cfg.grad_accum_step).symm
      _ ≤ cfg.batch_size := h1
  · intro i hi
    refine ⟨(i / cfg.grad_accum_step * cfg.grad_accum_step,
             i / cfg.grad_accum_step * cfg.grad_accum_step + cfg.grad_accum_step), ?_, ?_, ?_⟩
    · apply List.mem_map.mpr
      refine ⟨i / cfg.grad_accum_step, List.mem_range.mpr ?_, rfl⟩
      exact Nat.div_lt_div_of_lt_of_dvd hdvd hi
    · exact Nat.div_mul_le_self i cfg.grad_accum_step
    · have hmod := Nat.mod_lt i hA
      have hdm := Nat.div_add_mod i cfg.grad_accum_step
      have hcomm : i / cfg.grad_accum_step * cfg.grad_accum_step =
          cfg.grad_accum_step * (i / cfg.grad_accum_step) :=
        Nat.mul_comm _ _
      omega

/-- C6 (amended), witness: at batch_size = 32, grad_accum_step = 8 and an
actual batch size of 32, the four slices stay within and cover the
batch. -/
theorem claimC6_amended_witness :
    0 < 8 ∧ (8 : Nat) ∣ 32 ∧
    (slicesWithin { batch_size := 32, grad_accum_step := 8 } 32 ∧
     slicesCover { batch_size := 32, grad_accum_step := 8 } 32) :=
  ⟨by decide, by decide,
    claimC6_amended { batch_size := 32, grad_accum_step := 8 } 32 rfl (by decide) (by decide)⟩

/-- C1: evaluation at the failing input — resuming from a checkpoint
written at epoch 3 sets `_starting_epoch` to 4, yet the epoch loop of
`_start_training` iterates over `range(config.epochs)`: with 10 configured
epochs it enumerates 0..9 and its first executed epoch index is 0, not the
starting epoch 4 the claim (and the dead `_starting_epoch` assignment)
require. -/
theorem claimC1_code_eval :
    startingEpoch true 3 = 4 ∧
    trainingEpochIndices { epochs := 10 } = List.range 10 ∧
    (trainingEpochIndices { epochs := 10 }).head? = some 0 ∧
    (trainingEpochIndices { epochs := 10 }).head? ≠ some (startingEpoch true 3) := by
  refine ⟨rfl, rfl, rfl, ?_⟩
  decide

theorem microEvents_mem (strat : BatchStrategy) :
    ∀ e ∈ microEvents strat, e = Ev.backward ∨ e = Ev.metricUpd := by
  intro e he
  cases strat with
  | simple => simpa [microEvents] using he
  | accum steps =>
    simp only [microEvents, List.mem_flatMap] at he
    obtain ⟨s, _, hs⟩ := he
    simpa using hs

theorem microEvents_count_zeroGrad (strat : BatchStrategy) :
    (microEvents strat).count Ev.zeroGrad = 0 := by
  rw [List.count_eq_zero]
  intro hmem
  rcases microEvents_mem strat Ev.zeroGrad hmem with h | h <;> exact Ev.noConfusion h

theorem microEvents_countP_update (strat : BatchStrategy) :
    (microEvents strat).countP isParamUpdate = 0 := by
  rw [List.countP_eq_zero]
  intro a ha
  rcases microEvents_mem strat a ha with h | h <;> subst h <;> decide

/-- C4: in a training epoch the event trace is one block per batch; each
block begins with exactly one gradient zeroing, which precedes every
micro-batch event of the block and never occurs between micro-batches, and
each block contains exactly one parameter update (a loss-scaler step under
mixed precision, a direct optimizer step otherwise), placed after all
micro-batch events. -/
theorem claimC4_batch_structure (cfg : Config) (strat : BatchStrategy) (n : Nat) :
    trainEpochEvents cfg strat n =
      (List.range n).flatMap (fun _ => trainBatchEvents cfg strat) ∧
    trainBatchEvents cfg strat =
      Ev.zeroGrad :: (microEvents strat ++
        (if cfg.mixed_precision then [Ev.scalerStep, Ev.scalerUpdate] else [Ev.optStep]) ++
        [Ev.progressUpd]) ∧
    Ev.zeroGrad ∉ microEvents strat ∧
    (microEvents strat).countP isParamUpdate = 0 ∧
    (trainBatchEvents cfg strat).count Ev.zeroGrad = 1 ∧
    (trainBatchEvents cfg strat).countP isParamUpdate = 1 := by
  refine ⟨rfl, rfl, ?_, microEvents_countP_update strat, ?_, ?_⟩
  · intro hmem
    rcases microEvents_mem strat Ev.zeroGrad hmem with h | h <;> exact Ev.noConfusion h
  · show (Ev.zeroGrad :: (microEvents strat ++ _ ++ [Ev.progressUpd])).count Ev.zeroGrad = 1
    rw [List.count_cons_self, List.count_append, List.count_append,
      microEvents_count_zeroGrad]
    cases cfg.mixed_precision <;> simp
  · show (Ev.zeroGrad :: (microEvents strat ++ _ ++ [Ev.progressUpd])).countP isParamUpdate = 1
    rw [List.countP_cons, List.countP_append, List.countP_append,
      microEvents_countP_update strat]
    cases cfg.mixed_precision <;> simp [isParamUpdate]

theorem epochEvents_count_sched (cfg : Config) (r : Bool) (e : Nat) :
    (epochEvents cfg r e).count Ev.schedStep =
      if cfg.lr_scheduler_configured then 1 else 0 := by
  cases hc : cfg.lr_scheduler_configured <;> cases hr : r <;>
    simp [epochEvents, hc, hr, List.count_append]

theorem count_sched_range (cfg : Config) (r : Bool) :
    ∀ n, ((List.range n).flatMap (epochEvents cfg r)).count Ev.schedStep =
      n * (if cfg.lr_scheduler_configured then 1 else 0) := by
  intro n
  induction n with
  | zero => simp
  | succ k ih =>
    rw [List.range_succ, List.flatMap_append, List.count_append, ih]
    have h1 : ([k].flatMap (epochEvents cfg r)) = epochEvents cfg r k := by
      simp
    rw [h1, epochEvents_count_sched]
    ring

/-- C5: within every epoch of a training session the schedule-step event
occurs exactly when a schedule is configured — once, positioned after the
epoch's validation pass and before the checkpoint/report step — and the
whole session trace contains exactly one schedule step per epoch when
configured and none otherwise. -/
theorem claimC5_sched_step (cfg : Config) (r : Bool) (e : Nat) :
    ((epochEvents cfg r e).count Ev.schedStep =
      if cfg.lr_scheduler_configured then 1 else 0) ∧
    (∃ pre post, epochEvents cfg r e =
        pre ++ (if cfg.lr_scheduler_configured then [Ev.schedStep] else []) ++ post ∧
        Ev.schedStep ∉ pre ∧ Ev.schedStep ∉ post ∧
        Ev.valPass ∈ pre ∧
        (if r then Ev.report else Ev.saveCheckpoint) ∈ post) ∧
    ((startTrainingEvents cfg r).count Ev.schedStep =
      cfg.epochs * (if cfg.lr_scheduler_configured then 1 else 0)) := by
  refine ⟨epochEvents_count_sched cfg r e, ?_, ?_⟩
  · refine ⟨[Ev.lrMetric, Ev.beginEpoch e, Ev.trainPass, Ev.valPass, Ev.endEpoch],
      (if r then [Ev.report] else [Ev.saveCheckpoint]) ++ [Ev.resetMetrics],
      ?_, ?_, ?_, ?_, ?_⟩
    · simp [epochEvents, List.append_assoc]
    · simp
    · cases r <;> simp
    · simp
    · cases r <;> simp
  · show ((List.range cfg.epochs).flatMap (epochEvents cfg r) ++ [Ev.saveWeights]).count
      Ev.schedStep = _
    rw [List.count_append, count_sched_range]
    simp

/-- C7: counterexample — for a fresh session of unknown type "testing",
start() does fail, but only AFTER model construction and data loading: the
executed trace already contains the model initialization and the validation
data-loader construction when the exception is raised, contradicting the
claim that the failure surfaces before model construction and data loading;
moreover the exception is a ValueError (line 148), not a
ConfigurationError. -/
theorem claimC7_counterexample :
    startRun { session_type := some "testing" } false =
      ([Ev.modelInit, Ev.dataLoadVal, Ev.summary, Ev.buildMetrics, Ev.saveConfig,
        Ev.beginSession], some PyErr.valueError) ∧
    Ev.modelInit ∈ (startRun { session_type := some "testing" } false).1 ∧
    Ev.dataLoadVal ∈ (startRun { session_type := some "testing" } false).1 ∧
    (startRun { session_type := some "testing" } false).2 ≠ some PyErr.configurationError := by
  refine ⟨rfl, ?_, ?_, ?_⟩ <;> decide

/-- C7 (amended): for every fresh session whose effective type is neither
"training" nor "validation", start() raises ValueError; the failure is
surfaced before any batch executes (no training pass, validation pass or
metric update appears in the trace) but after model construction and data
loading. -/
theorem claimC7_amended (cfg : Config) (r : Bool)
    (hfresh : cfg.session_id = none)
    (hty1 : cfg.session_type.getD "training" ≠ "training")
    (hty2 : cfg.session_type.getD "training" ≠ "validation") :
    (startRun cfg r).2 = some PyErr.valueError ∧
    Ev.modelInit ∈ (startRun cfg r).1 ∧
    Ev.dataLoadVal ∈ (startRun cfg r).1 ∧
    Ev.trainPass ∉ (startRun cfg r).1 ∧
    Ev.valPass ∉ (startRun cfg r).1 ∧
    Ev.metricUpd ∉ (startRun cfg r).1 := by
  cases ht : cfg.tuning <;>
    simp [startRun, sessionInit, loadData, callSkeletonDataset, hfresh, hty1, hty2, ht]

/-- C7 (amended), witness: a fresh session configured with type "testing"
raises ValueError after model construction and data loading, with no batch
events in its trace. -/
theorem claimC7_amended_witness :
    (startRun { session_type := some "testing" } true).2 = some PyErr.valueError ∧
    Ev.modelInit ∈ (startRun { session_type := some "testing" } true).1 ∧
    Ev.dataLoadVal ∈ (startRun { session_type := some "testing" } true).1 ∧
    Ev.trainPass ∉ (startRun { session_type := some "testing" } true).1 ∧
    Ev.valPass ∉ (startRun { session_type := some "testing" } true).1 ∧
    Ev.metricUpd ∉ (startRun { session_type := some "testing" } true).1 :=
  claimC7_amended { session_type := some "testing" } true rfl (by decide) (by decide)

/-- C8: evaluation at the failing input — a session of type "validation"
completes without error, but its trace contains NO validation pass and no
metric update: `_start_validation` (lines 346-348) is an empty `pass` stub,
so start() ends the session without running a single pass over the
validation data, contrary to the claim. -/
theorem claimC8_code_eval :
    startRun { session_type := some "validation" } false =
      ([Ev.modelInit, Ev.dataLoadVal, Ev.summary, Ev.buildMetrics, Ev.saveConfig,
        Ev.beginSession, Ev.endSession], none) ∧
    Ev.valPass ∉ (startRun { session_type := some "validation" } false).1 ∧
    Ev.metricUpd ∉ (startRun { session_type := some "validation" } false).1 := by
  refine ⟨rfl, ?_, ?_⟩ <;> decide

/-- C9: for every fresh session whose effective type is "training", start()
raises TypeError during data loading and before any batch executes: the
training `SkeletonDataset` is called with three positional arguments
(features path, labels path and the debug flag) although its `__init__`
accepts only two positionally, so the trace at the exception contains only
the model initialization. -/
theorem claimC9_typeError (cfg : Config) (r : Bool)
    (hfresh : cfg.session_id = none)
    (hty : cfg.session_type.getD "training" = "training") :
    callSkeletonDataset 3 = .error PyErr.typeError ∧
    callSkeletonDataset 2 = .ok () ∧
    startRun cfg r = ([Ev.modelInit], some PyErr.typeError) := by
  refine ⟨rfl, rfl, ?_⟩
  simp [startRun, sessionInit, loadData, callSkeletonDataset, hfresh, hty]

/-- C9, witness: a default-configured fresh session (effective type
"training") fails with TypeError right after model initialization. -/
theorem claimC9_witness :
    callSkeletonDataset 3 = .error PyErr.typeError ∧
    callSkeletonDataset 2 = .ok () ∧
    startRun {} false = ([Ev.modelInit], some PyErr.typeError) :=
  claimC9_typeError {} false rfl rfl

/-- C10: for every resumed session (config.session_id present),
`Session.__init__` leaves the `_session_type` attribute unassigned, and
start() raises AttributeError at its first unconditional read of
`self._session_type` (inside `_load_data`), right after model
initialization. -/
theorem claimC10_attrError (cfg : Config) (r : Bool) (sid : String)
    (hres : cfg.session_id = some sid) :
    (∃ s, sessionInit cfg = .ok s ∧ s.session_type = none) ∧
    startRun cfg r = ([Ev.modelInit], some PyErr.attributeError) := by
  constructor
  · exact ⟨_, rfl, by simp [hres]⟩
  · simp [startRun, sessionInit, loadData, hres]

/-- C10, witness: resuming session id "abc" leaves the session type
unassigned and start() raises AttributeError after model
initialization. -/
theorem claimC10_witness :
    (∃ s, sessionInit { session_id := some "abc" } = .ok s ∧ s.session_type = none) ∧
    startRun { session_id := some "abc" } false =
      ([Ev.modelInit], some PyErr.attributeError) :=
  claimC10_attrError { session_id := some "abc" } false "abc" rfl
